import Mathlib

/-!
Verification development for the imagetools crop/pan core.

The definitions below are a shallow embedding of the relevant parts of
src/utils.py (coordinate-term parsing, argtuple, cropargv, computecrop)
and src/croppan.py (PanSpec and the expand_pans walk).  Machine-level
idealizations: Python floats are embedded as exact rationals, Python's
int(str) conversion is embedded on its core grammar (optional surrounding
whitespace, optional sign, a nonempty run of ASCII digits), and Python
exceptions are embedded as Except values carrying the exception name.
-/

deriving instance DecidableEq for Except

attribute [local semireducible] Rat.add Rat.mul Rat.inv Rat.sub

set_option synthInstance.maxSize 2000

namespace ImageTools

/-- Python str.strip() on a list of characters: drop whitespace at both ends. -/
def pytrim (cs : List Char) : List Char :=
  ((cs.dropWhile Char.isWhitespace).reverse.dropWhile Char.isWhitespace).reverse

/-- Value of a nonempty run of ASCII digits; none if empty or a non-digit occurs. -/
def digitsVal (ds : List Char) : Option Int :=
  if ds ≠ [] ∧ ds.all Char.isDigit then
    some (Int.ofNat (ds.foldl (fun acc c => 10 * acc + (c.toNat - 48)) 0))
  else none

/-- Python int(str) on a list of characters (core grammar: optional whitespace,
optional sign, digits). -/
def pyIntOfChars (cs : List Char) : Option Int :=
  match pytrim cs with
  | '+' :: ds => digitsVal ds
  | '-' :: ds => (digitsVal ds).map (fun v => -v)
  | ds => digitsVal ds

/-- Deferred coordinate evaluator produced by utils._parseNRS.  The closures of
the source become a tagged variant; the prefix-less branch keeps the raw token
because the source defers the int conversion to evaluation time. -/
inductive Term where
  | relpos (r : Int)
  | zerosent
  | relneg (r : Int)
  | sizeoff (r : Int)
  | absolute (s : List Char)
deriving DecidableEq, Repr

/-- Application of a term closure to (anchor u, extent z), mirroring the five
lambdas of utils._parseNRS.  A coordinate may be Python None (Option.none). -/
def evalTerm (t : Term) (u : Option Int) (z : Option Int) : Except String (Option Int) :=
  match t with
  | .relpos r => .ok (some (0 + r))
  | .zerosent => .ok (match u with | none => some 0 | some _ => z)
  | .relneg r =>
    match z with
    | some zv => .ok (some (zv + r))
    | none => .error "TypeError"
  | .sizeoff r =>
    match u with
    | some uv => .ok (some (uv + r))
    | none => .error "TypeError"
  | .absolute s =>
    match pyIntOfChars s with
    | some v => .ok (some v)
    | none => .error "ValueError"

/-- Remainder that utils._parseNRS feeds to int() for a prefixed token: the R/r
or S/s prefix is stripped, while an explicit sign stays part of the number. -/
def remainderOf (c : Char) (rest : List Char) : List Char :=
  if c = 'R' ∨ c = 'r' ∨ c = 'S' ∨ c = 's' then rest else c :: rest

/-- Embedding of utils._parseNRS on the characters of one token. -/
def parseNRS (cs : List Char) : Except String Term :=
  match pytrim cs with
  | [] => .error "IndexError"
  | c :: rest =>
    if c = 'R' ∨ c = 'r' ∨ c = '+' ∨ c = '-' then
      match pyIntOfChars (remainderOf c rest) with
      | none => .error "ValueError"
      | some r =>
        if 0 < r then .ok (.relpos r)
        else if r = 0 then .ok .zerosent
        else .ok (.relneg r)
    else if c = 'S' ∨ c = 's' then
      match pyIntOfChars rest with
      | none => .error "ValueError"
      | some r => .ok (.sizeoff r)
    else .ok (.absolute (c :: rest))

/-- Embedding of utils._parseNRS on a string token. -/
def _parseNRS (s : String) : Except String Term :=
  parseNRS s.data

/-- Python str.split(sep) on characters for a one-character separator (the
source only ever passes one-character separators): empty groups are kept. -/
def splitCharsOne (sep : Char) : List Char → List (List Char)
  | [] => [[]]
  | c :: cs =>
    if c = sep then [] :: splitCharsOne sep cs
    else
      match splitCharsOne sep cs with
      | [] => [[c]]
      | g :: gs => (c :: g) :: gs

/-- Python s.split(sep) for a one-character separator, on strings. -/
def pySplit (s : String) (sep : Char) : List String :=
  (splitCharsOne sep s.data).map String.mk

/-- Separator loop of utils.argtuple: each separator is tried in order,
stopping when the split yields multiple fields or all have been tried. -/
def splitLoop (s : String) : List Char → Except String (List String)
  | [] => .error "NameError"
  | [sep] => .ok (pySplit s sep)
  | sep :: more =>
    let a := pySplit s sep
    if 1 < a.length then .ok a else splitLoop s more

/-- Embedding of utils.argtuple specialized to an Except-valued field parser. -/
def argtuple {α : Type} (tp : String → Except String α) (s : String)
    (dflts0 : List String) (n0 : Option Nat) (seps : List Char) :
    Except String (List α) :=
  let nn := if 0 < dflts0.length then some (n0.getD dflts0.length) else n0
  let dres : Except String (List String) :=
    if 0 < dflts0.length ∧ 1 < n0.getD dflts0.length then
      if dflts0.length = 1 then
        .ok (List.replicate (n0.getD dflts0.length) (dflts0.headD ""))
      else if dflts0.length ≠ n0.getD dflts0.length then .error "ValueError"
      else .ok dflts0
    else .ok dflts0
  match dres with
  | .error e => .error e
  | .ok dflts =>
    match (if s ≠ "" then splitLoop s seps else .ok []) with
    | .error e => .error e
    | .ok a =>
      match nn with
      | none => a.mapM tp
      | some nv =>
        if nv < a.length then .error "ValueError"
        else if a.length < nv ∧ dflts.length = 0 then .error "ValueError"
        else (a ++ dflts.drop a.length).mapM tp

/-- Embedding of utils.cropargv: four comma-separated terms defaulting to "+0". -/
def cropargv (s : String) : Except String (List Term) :=
  argtuple _parseNRS s ["+0"] (some 4) [',']

/-- Resolved crop tuple: four coordinates, each possibly Python None. -/
abbrev PyCrop := Option Int × Option Int × Option Int × Option Int

/-- Body of utils.computecrop once the two extents are known: the fixed
evaluation order c0, c1, then cspec[2] against c0 and cspec[3] against c1. -/
def resolveTerms (t0 t1 t2 t3 : Term) (sz0 sz1 : Option Int) :
    Except String PyCrop :=
  match evalTerm t0 none sz0 with
  | .error e => .error e
  | .ok c0 =>
    match evalTerm t1 none sz1 with
    | .error e => .error e
    | .ok c1 =>
      match evalTerm t2 c0 sz0 with
      | .error e => .error e
      | .ok c2 =>
        match evalTerm t3 c1 sz1 with
        | .error e => .error e
        | .ok c3 => .ok (c0, c1, c2, c3)

/-- Indexing cspec[0..3] of utils.computecrop on a term list. -/
def resolveWith (cspec : List Term) (sz0 sz1 : Option Int) :
    Except String PyCrop :=
  match cspec with
  | t0 :: t1 :: t2 :: t3 :: _ => resolveTerms t0 t1 t2 t3 sz0 sz1
  | _ => .error "IndexError"

/-- Image argument of utils.computecrop: an open image carrying its size, the
Python None placeholder, or a file name to be opened. -/
inductive ImgArg where
  | img (size : Int × Int)
  | noimg
  | name (s : String)
deriving DecidableEq, Repr

/-- Embedding of utils.computecrop.  The file system is an oracle from names to
optional sizes; a missing name (FileNotFoundError) recurses with None exactly
as the source does. -/
def computecrop (cspec : List Term) (img : ImgArg)
    (fs : String → Option (Int × Int)) : Except String PyCrop :=
  match img with
  | .img (w, h) => resolveWith cspec (some w) (some h)
  | .noimg => resolveWith cspec none none
  | .name s =>
    match fs s with
    | some (w, h) => resolveWith cspec (some w) (some h)
    | none => resolveWith cspec none none

/-- Crop box of croppan.py during expansion: four per-axis values.  Python
floats are embedded as exact rationals. -/
@[ext] structure Box where
  x1 : ℚ
  y1 : ℚ
  x2 : ℚ
  y2 : ℚ
deriving DecidableEq, Repr

/-- Pointwise addition, mirroring curbox[i] + deltas[i]. -/
def Box.add (a b : Box) : Box :=
  ⟨a.x1 + b.x1, a.y1 + b.y1, a.x2 + b.x2, a.y2 + b.y2⟩

/-- Pointwise scalar multiple, used to state accumulated delta steps. -/
def Box.smul (k : ℚ) (b : Box) : Box :=
  ⟨k * b.x1, k * b.y1, k * b.x2, k * b.y2⟩

/-- The all-zero deltas [0, 0, 0, 0] of croppan.py. -/
def zeroBox : Box := ⟨0, 0, 0, 0⟩

/-- Per-axis deltas of croppan.py line 143: (crop1[i] - curbox[i]) / (nf - 1). -/
def deltaBox (c1 cbv : Box) (nf : Int) : Box :=
  ⟨(c1.x1 - cbv.x1) / ((nf : ℚ) - 1), (c1.y1 - cbv.y1) / ((nf : ℚ) - 1),
   (c1.x2 - cbv.x2) / ((nf : ℚ) - 1), (c1.y2 - cbv.y2) / ((nf : ℚ) - 1)⟩

/-- Python int() on a rational: truncation toward zero, computed as truncated
division of the reduced numerator by the (positive) denominator. -/
def pytrunc (q : ℚ) : ℤ :=
  q.num.tdiv q.den

/-- Rounding of croppan.py line 146: int(value + 0.5). -/
def pyround (q : ℚ) : ℤ :=
  pytrunc (q + 1 / 2)

/-- The rounded box [int(curbox[i] + 0.5) for i in i4]. -/
def pyroundBox (b : Box) : Int × Int × Int × Int :=
  (pyround b.x1, pyround b.y1, pyround b.x2, pyround b.y2)

/-- One output element of expand_pans: (imagename, rounded crop). -/
abbrev Frame := String × (Int × Int × Int × Int)

/-- The underlying _PanSpec namedtuple of croppan.py.  image0 and image1 may be
Python None; crop fields may be None (inherit / unset). -/
structure PanSpec where
  image0 : Option String
  crop0 : Option Box
  image1 : Option String
  crop1 : Option Box
  n : Int
deriving DecidableEq, Repr

/-- Python `a or b` on optional strings: None and the empty string are falsy. -/
def pyOrStr (a b : Option String) : Option String :=
  match a with
  | none => b
  | some s => if s = "" then b else some s

/-- Python `a or b` on optional crop tuples: only None is falsy. -/
def pyOrBox (a b : Option Box) : Option Box :=
  match a with
  | none => b
  | some c => some c

/-- The PanSpec wrapper of croppan.py line 70: image1 defaults to image0 and
crop1 defaults to crop0 via Python `or`. -/
def PanSpec.make (image0 : Option String) (crop0 : Option Box)
    (image1 : Option String) (crop1 : Option Box) (n : Int) : PanSpec :=
  ⟨image0, crop0, pyOrStr image1 image0, pyOrBox crop1 crop0, n⟩

/-- Mutable loop state of the expand_pans walk.  Fields are Option to model
Python locals that may still be unbound (use of an unbound one is NameError). -/
structure WalkState where
  px : List PanSpec
  p : Option PanSpec
  reps : Option Int
  curbox : Option Box
  deltas : Option Box
deriving DecidableEq, Repr

/-- Index of the first occurrence of s in a list, from the start. -/
def findIdxS (s : String) : List String → Option Nat
  | [] => none
  | a :: rest => if a = s then some 0 else (findIdxS s rest).map Nat.succ

/-- Python names.index(x) of croppan.py line 124: looks for the first
occurrence in the whole list; ValueError (none) if absent, and a None target
never equals a string. -/
def findIdxO (names : List String) (x : Option String) : Option Nat :=
  match x with
  | none => none
  | some s => findIdxS s names

/-- Emission loop of croppan.py lines 145-148: r frames for fname, rounding
curbox each time and then advancing it by deltas. -/
def emit (fname : String) : Nat → Box → Box → List Frame × Box
  | 0, cb, _ => ([], cb)
  | r + 1, cb, dl =>
    let f : Frame := (fname, pyroundBox cb)
    let (fs, cb') := emit fname r (cb.add dl) dl
    (f :: fs, cb')

/-- Settle step of croppan.py lines 150-154: on reaching the active waypoint's
image1, freeze deltas and reps and snap curbox to crop1 when it is not None. -/
def settle (fname : String) (st : WalkState) : Except String WalkState :=
  match st.p with
  | none => .error "NameError"
  | some pp =>
    if pp.image1 = some fname then
      .ok { st with
            deltas := some zeroBox
            reps := some 1
            curbox := match pp.crop1 with | some c => some c | none => st.curbox }
    else .ok st

/-- Waypoint activation of croppan.py lines 118-143: pop the waypoint, set
reps and curbox, locate image1 from the start of names, and derive deltas. -/
def activate (names : List String) (fnum : Nat) (q : PanSpec)
    (restpx : List PanSpec) (st : WalkState) : Except String WalkState :=
  let cb := match q.crop0 with | some c => some c | none => st.curbox
  match findIdxO names q.image1 with
  | none => .ok ⟨restpx, some q, some q.n, cb, some zeroBox⟩
  | some nextAt =>
    let nf : Int := ((nextAt : Int) - (fnum : Int) + 1) * q.n
    if nf = 1 then .ok ⟨restpx, some q, some q.n, cb, some zeroBox⟩
    else
      match q.crop1, cb with
      | none, _ => .error "TypeError"
      | some _, none => .error "NameError"
      | some c1, some cbv =>
        .ok ⟨restpx, some q, some q.n, some cbv, some (deltaBox c1 cbv nf)⟩

/-- The pop test of croppan.py line 117: px[0] raises IndexError on an empty
list, and the waypoint activates when its image0 equals the current name. -/
def popStep (names : List String) (fnum : Nat) (fname : String)
    (st : WalkState) : Except String WalkState :=
  match st.px with
  | [] => .error "IndexError"
  | q :: restpx =>
    if q.image0 = some fname then activate names fnum q restpx st else .ok st

/-- One iteration of the expand_pans loop body for one image name. -/
def stepImage (names : List String) (fnum : Nat) (fname : String)
    (st : WalkState) : Except String (List Frame × WalkState) :=
  match popStep names fnum fname st with
  | .error e => .error e
  | .ok st1 =>
    match st1.reps with
    | none => .error "NameError"
    | some r =>
      if r ≤ 0 then
        match settle fname st1 with
        | .error e => .error e
        | .ok st2 => .ok ([], st2)
      else
        match st1.curbox, st1.deltas with
        | some cb, some dl =>
          let (fs, cb') := emit fname r.toNat cb dl
          match settle fname { st1 with curbox := some cb' } with
          | .error e => .error e
          | .ok st2 => .ok (fs, st2)
        | _, _ => .error "NameError"

/-- The walk over the image names, threading the loop state and collecting the
emitted frames in order. -/
def walkFull (names : List String) : List String → Nat → WalkState →
    Except String (List Frame × WalkState)
  | [], _, st => .ok ([], st)
  | fname :: rest, fnum, st =>
    match stepImage names fnum fname st with
    | .error e => .error e
    | .ok (fs, st') =>
      match walkFull names rest (fnum + 1) st' with
      | .error e => .error e
      | .ok (more, stF) => .ok (fs ++ more, stF)

/-- Embedding of croppan.expand_pans including its normalization: the leading
synthetic waypoint when the first waypoint does not name the first image, and
the synthetic closing waypoint with image0 None.  The final loop state is
returned alongside the frames. -/
def expandFull (names : List String) (pans : List PanSpec) :
    Except String (List Frame × WalkState) :=
  match pans with
  | [] => .error "IndexError"
  | p0 :: _ =>
    match names with
    | [] => .error "IndexError"
    | n0 :: _ =>
      let px1 :=
        if p0.image0 ≠ some n0 then
          PanSpec.make (some n0) p0.crop0 none none 1 :: pans
        else pans
      let px2 := px1 ++ [PanSpec.make none (px1.getLastD p0).crop1 none none 1]
      walkFull names names 0 ⟨px2, none, none, none, none⟩

/-- The frames generated by croppan.expand_pans (an exception anywhere in the
lazy generation is collapsed to the error of the whole run). -/
def expand_pans (names : List String) (pans : List PanSpec) :
    Except String (List Frame) :=
  (expandFull names pans).map Prod.fst

/-- Modelled from the spec: first occurrence of s at or after position start,
as absolute index (the claimed names.index(image1, current) behavior). -/
def findIdxFromS (s : String) (start : Nat) (l : List String) : Option Nat :=
  (findIdxS s (l.drop start)).map (fun i => i + start)

/-- Modelled from the spec: locate image1 starting from the current position;
a None target matches nothing. -/
def findIdxFromO (names : List String) (start : Nat) (x : Option String) :
    Option Nat :=
  match x with
  | none => none
  | some s => findIdxFromS s start names

/-- Modelled from the spec: waypoint activation whose image1 lookup starts at
the current position instead of the start of the list; otherwise identical to
activate. -/
def activateSearch (names : List String) (fnum : Nat) (q : PanSpec)
    (restpx : List PanSpec) (st : WalkState) : Except String WalkState :=
  let cb := match q.crop0 with | some c => some c | none => st.curbox
  match findIdxFromO names fnum q.image1 with
  | none => .ok ⟨restpx, some q, some q.n, cb, some zeroBox⟩
  | some nextAt =>
    let nf : Int := ((nextAt : Int) - (fnum : Int) + 1) * q.n
    if nf = 1 then .ok ⟨restpx, some q, some q.n, cb, some zeroBox⟩
    else
      match q.crop1, cb with
      | none, _ => .error "TypeError"
      | some _, none => .error "NameError"
      | some c1, some cbv =>
        .ok ⟨restpx, some q, some q.n, some cbv, some (deltaBox c1 cbv nf)⟩

/-- Modelled from the spec: pop test over the search-from-current activation. -/
def popStepSearch (names : List String) (fnum : Nat) (fname : String)
    (st : WalkState) : Except String WalkState :=
  match st.px with
  | [] => .error "IndexError"
  | q :: restpx =>
    if q.image0 = some fname then activateSearch names fnum q restpx st
    else .ok st

/-- Modelled from the spec: one loop iteration with search-from-current. -/
def stepImageSearch (names : List String) (fnum : Nat) (fname : String)
    (st : WalkState) : Except String (List Frame × WalkState) :=
  match popStepSearch names fnum fname st with
  | .error e => .error e
  | .ok st1 =>
    match st1.reps with
    | none => .error "NameError"
    | some r =>
      if r ≤ 0 then
        match settle fname st1 with
        | .error e => .error e
        | .ok st2 => .ok ([], st2)
      else
        match st1.curbox, st1.deltas with
        | some cb, some dl =>
          let (fs, cb') := emit fname r.toNat cb dl
          match settle fname { st1 with curbox := some cb' } with
          | .error e => .error e
          | .ok st2 => .ok (fs, st2)
        | _, _ => .error "NameError"

/-- Modelled from the spec: the walk using search-from-current activation. -/
def walkSearch (names : List String) : List String → Nat → WalkState →
    Except String (List Frame × WalkState)
  | [], _, st => .ok ([], st)
  | fname :: rest, fnum, st =>
    match stepImageSearch names fnum fname st with
    | .error e => .error e
    | .ok (fs, st') =>
      match walkSearch names rest (fnum + 1) st' with
      | .error e => .error e
      | .ok (more, stF) => .ok (fs ++ more, stF)

/-- Modelled from the spec: expand_pans as the spec describes it for claim C2,
with the image1 lookup starting from the current position. -/
def expand_pans_search (names : List String) (pans : List PanSpec) :
    Except String (List Frame) :=
  match pans with
  | [] => .error "IndexError"
  | p0 :: _ =>
    match names with
    | [] => .error "IndexError"
    | n0 :: _ =>
      let px1 :=
        if p0.image0 ≠ some n0 then
          PanSpec.make (some n0) p0.crop0 none none 1 :: pans
        else pans
      let px2 := px1 ++ [PanSpec.make none (px1.getLastD p0).crop1 none none 1]
      (walkSearch names names 0 ⟨px2, none, none, none, none⟩).map Prod.fst

/-- Modelled from the spec: round-half-up as floor(value + 0.5), the rounding
claim C3 attributes to the emitter. -/
def pyroundFloorSpec (q : ℚ) : ℤ :=
  ⌊q + 1 / 2⌋

/-- Modelled from the spec: the floor-based rounding applied per axis. -/
def pyroundFloorBoxSpec (b : Box) : Int × Int × Int × Int :=
  (pyroundFloorSpec b.x1, pyroundFloorSpec b.y1,
   pyroundFloorSpec b.x2, pyroundFloorSpec b.y2)

/-- Modelled from the spec: the emission loop under floor-based rounding, to
be compared with emit for claim C3. -/
def emitFloorSpec (fname : String) : Nat → Box → Box → List Frame × Box
  | 0, cb, _ => ([], cb)
  | r + 1, cb, dl =>
    let f : Frame := (fname, pyroundFloorBoxSpec cb)
    let (fs, cb') := emitFloorSpec fname r (cb.add dl) dl
    (f :: fs, cb')

/-- Extra frames the claim C1 formula predicts: the sum of n - 1 over the
waypoints with n greater than 1. -/
def panExtraClaim (pans : List PanSpec) : Int :=
  (pans.map (fun p => if 1 < p.n then p.n - 1 else 0)).sum

/-- Frames of a held walk: every listed image repeated r times with one fixed
rounded box, used to state claim C8. -/
def holdFrames (r : Nat) (bx : Int × Int × Int × Int) : List String → List Frame
  | [] => []
  | nm :: rest => List.replicate r (nm, bx) ++ holdFrames r bx rest

/-- Concrete input of the C1 counterexample: one waypoint with n = 2 whose
segment spans two images. -/
def c1exNames : List String := ["A", "B"]

/-- Waypoint list of the C1 counterexample. -/
def c1exPans : List PanSpec :=
  [PanSpec.make (some "A") (some ⟨0, 0, 0, 0⟩) (some "B") (some ⟨0, 0, 0, 0⟩) 2]

/-- Frames actually produced on the C1 counterexample input. -/
def c1exFrames : List Frame :=
  [("A", (0, 0, 0, 0)), ("A", (0, 0, 0, 0)), ("B", (0, 0, 0, 0)), ("B", (0, 0, 0, 0))]

/-- Concrete input of the C2 counterexample: image1 of the second waypoint
occurs before the activation position and again after it. -/
def c2exNames : List String := ["X", "A", "X"]

/-- Waypoint list of the C2 counterexample. -/
def c2exPans : List PanSpec :=
  [PanSpec.make (some "A") (some ⟨0, 0, 0, 0⟩) (some "X") (some ⟨8, 8, 8, 8⟩) 1]

/-- Frames the source code produces on the C2 input (lookup from the start). -/
def c2exCodeFrames : List Frame :=
  [("X", (0, 0, 0, 0)), ("A", (0, 0, 0, 0)), ("X", (-7, -7, -7, -7))]

/-- Frames the spec's search-from-current lookup would produce on the C2 input. -/
def c2exSpecFrames : List Frame :=
  [("X", (0, 0, 0, 0)), ("A", (0, 0, 0, 0)), ("X", (8, 8, 8, 8))]

/-- Concrete input of the C3 counterexample: interpolation toward a negative
coordinate makes the running box negative and fractional. -/
def c3exNames : List String := ["A"]

/-- Waypoint list of the C3 counterexample (n = 5 on one image). -/
def c3exPans : List PanSpec :=
  [PanSpec.make (some "A") (some ⟨0, 0, 0, 0⟩) none (some ⟨-7, 0, 0, 0⟩) 5]

/-- Frames actually produced on the C3 input. -/
def c3exFrames : List Frame :=
  [("A", (0, 0, 0, 0)), ("A", (-1, 0, 0, 0)), ("A", (-3, 0, 0, 0)),
   ("A", (-4, 0, 0, 0)), ("A", (-6, 0, 0, 0))]

/-- Per-axis deltas in effect during the C3 run: (-7 - 0) / (5 - 1). -/
def c3exDelta : Box := ⟨-7 / 4, 0, 0, 0⟩

/-- Concrete witness input for the C1 amended theorem: a single-image waypoint
with n = 3 followed by a free-running image. -/
def c1wNames : List String := ["A", "B"]

/-- Waypoint list of the C1 amended witness. -/
def c1wPans : List PanSpec :=
  [PanSpec.make (some "A") (some ⟨0, 0, 0, 0⟩) none none 3]

/-- Frames of the C1 amended witness run. -/
def c1wFrames : List Frame :=
  [("A", (0, 0, 0, 0)), ("A", (0, 0, 0, 0)), ("A", (0, 0, 0, 0)), ("B", (0, 0, 0, 0))]

/-- Final loop state of the C1 amended witness run. -/
def c1wStF : WalkState :=
  ⟨[PanSpec.make none (some ⟨0, 0, 0, 0⟩) none none 1],
   some (PanSpec.make (some "A") (some ⟨0, 0, 0, 0⟩) none none 3),
   some 1, some ⟨0, 0, 0, 0⟩, some zeroBox⟩

/-- Concrete input of the C4 counterexample: crop1 holds a negative
coordinate. -/
def c4exNames : List String := ["A", "B"]

/-- Waypoint list of the C4 counterexample. -/
def c4exPans : List PanSpec :=
  [PanSpec.make (some "A") (some ⟨0, 0, 0, 0⟩) (some "B") (some ⟨-3, 0, 0, 0⟩) 1]

/-- Frames actually produced on the C4 input: the last frame is (-2, 0, 0, 0),
not crop1 = (-3, 0, 0, 0). -/
def c4exFrames : List Frame :=
  [("A", (0, 0, 0, 0)), ("B", (-2, 0, 0, 0))]

/-- Term list parsed from the crop string of the C5 counterexample. -/
def c5exTerms : List Term :=
  [Term.absolute ['0'], Term.absolute ['0'], Term.zerosent, Term.zerosent]

/-- File-system oracle with no openable images. -/
def emptyFs : String → Option (Int × Int) := fun _ => none

/-- Truncation toward zero agrees with the floor on nonnegative rationals. -/
theorem pytrunc_eq_floor (q : ℚ) (h : 0 ≤ q) : pytrunc q = ⌊q⌋ := by
  rw [pytrunc, Rat.floor_def]
  exact Int.tdiv_eq_ediv (Rat.num_nonneg.2 h) (Int.ofNat_nonneg _)

/-- The emitter's rounding fixes any nonnegative integer value. -/
theorem pyround_intCast (m : ℤ) (h : 0 ≤ m) : pyround (m : ℚ) = m := by
  have hm : (0 : ℚ) ≤ (m : ℚ) := by exact_mod_cast h
  rw [pyround, pytrunc_eq_floor _ (by linarith), Int.floor_int_add]
  have : ⌊(1 / 2 : ℚ)⌋ = 0 := by
    rw [Int.floor_eq_zero_iff]
    constructor <;> norm_num
  omega

/-- C10 (confirmed): with a non-empty image sequence and an empty waypoint
list, expand_pans yields no frames and fails with IndexError as soon as the
generator is driven (px[0] on the empty working list). -/
theorem c10_theorem (names : List String) (_h : names ≠ []) :
    expand_pans names [] = .error "IndexError" := by
  simp [expand_pans, expandFull, Except.map]

/-- Witness for C10 at a concrete one-image sequence. -/
theorem c10_witness : expand_pans ["A"] [] = .error "IndexError" :=
  c10_theorem ["A"] (by decide)

/-- C5 counterexample: a crop spec over a named but missing image whose
zero-sentinel terms require the extent resolves without any error, yielding
silent None coordinates, where the claim demands a fatal error. -/
theorem c5_counterexample :
    cropargv "0,0,R0,R0" = .ok c5exTerms ∧
    computecrop c5exTerms (ImgArg.name "nope.jpg") emptyFs
      = .ok (some 0, some 0, none, none) := by
  decide

/-- C5 amended: a user-named image that cannot be opened is treated exactly
like the unnamed placeholder None; resolution degrades to extent None rather
than failing, for every crop spec and file system. -/
theorem c5_amended (cspec : List Term) (nm : String)
    (fs : String → Option (Int × Int)) (h : fs nm = none) :
    computecrop cspec (ImgArg.name nm) fs = computecrop cspec ImgArg.noimg fs := by
  simp [computecrop, h]

/-- Witness for the C5 amended theorem at a concrete spec and oracle. -/
theorem c5_amended_witness :
    computecrop c5exTerms (ImgArg.name "missing.jpg") emptyFs
      = computecrop c5exTerms ImgArg.noimg emptyFs :=
  c5_amended c5exTerms "missing.jpg" emptyFs rfl

/-- C3 counterexample: during the C3 run the emitter, fed the exact runtime
deltas, rounds the second frame to -1 while floor(value + 0.5) of the running
coordinate -7/4 is -2, so emitted boxes are not floor-rounded. -/
theorem c3_counterexample :
    expand_pans c3exNames c3exPans = .ok c3exFrames ∧
    (emit "A" 5 (Box.mk 0 0 0 0) c3exDelta).1 = c3exFrames ∧
    (emitFloorSpec "A" 5 (Box.mk 0 0 0 0) c3exDelta).1.get? 1 = some ("A", (-2, 0, 0, 0)) ∧
    c3exFrames.get? 1 = some ("A", (-1, 0, 0, 0)) :=
  ⟨by decide, by decide, by decide, by decide⟩

/-- C3 amended: the emitter's rounding is truncation toward zero of
value + 0.5; it agrees with the claimed floor(value + 0.5) exactly when
value is at least -1/2, in particular for all nonnegative coordinates. -/
theorem c3_amended (q : ℚ) (h : -(1 / 2) ≤ q) :
    pyround q = pyroundFloorSpec q := by
  rw [pyround, pyroundFloorSpec, pytrunc_eq_floor _ (by linarith)]

/-- Witness for the C3 amended theorem at the value 3/4. -/
theorem c3_amended_witness : pyround (3 / 4 : ℚ) = pyroundFloorSpec (3 / 4 : ℚ) :=
  c3_amended (3 / 4 : ℚ) (by norm_num)

/-- C2 counterexample: on a sequence where image1 also occurs before the
activation position, the source's whole-list lookup and the spec's
search-from-current lookup produce observably different frame streams. -/
theorem c2_counterexample :
    expand_pans c2exNames c2exPans = .ok c2exCodeFrames ∧
    expand_pans_search c2exNames c2exPans = .ok c2exSpecFrames ∧
    c2exCodeFrames ≠ c2exSpecFrames :=
  ⟨by decide, by decide, by decide⟩

/-- C4 counterexample: an interpolated two-image segment whose crop1 has a
negative coordinate; the last frame emitted for the target image is
(-2, 0, 0, 0), not crop1 = (-3, 0, 0, 0). -/
theorem c4_counterexample :
    expand_pans c4exNames c4exPans = .ok c4exFrames ∧
    c4exFrames.getLast? = some ("B", (-2, 0, 0, 0)) ∧
    ((-2 : ℤ), (0 : ℤ), (0 : ℤ), (0 : ℤ)) ≠ ((-3 : ℤ), (0 : ℤ), (0 : ℤ), (0 : ℤ)) :=
  ⟨by decide, by decide, by decide⟩

/-- C6 counterexample: the prefix-less token 1x is not a valid integer, yet
cropargv succeeds, deferring the conversion; the ValueError only appears when
the term evaluator is applied. -/
theorem c6_counterexample :
    pyIntOfChars ['1', 'x'] = none ∧
    cropargv "1x,2,3,4"
      = .ok [Term.absolute ['1', 'x'], Term.absolute ['2'],
             Term.absolute ['3'], Term.absolute ['4']] ∧
    evalTerm (Term.absolute ['1', 'x']) none (some 100) = .error "ValueError" := by
  decide

/-- C1 counterexample: one waypoint with n = 2 spanning two images emits four
frames, while the claimed formula len(images) + sum of (n - 1) predicts
three. -/
theorem c1_counterexample :
    expand_pans c1exNames c1exPans = .ok c1exFrames ∧
    (c1exFrames.length : Int) ≠ (c1exNames.length : Int) + panExtraClaim c1exPans := by
  decide

/-- Dropping from a replicated list leaves a shorter replicated list. -/
theorem drop_replicate_eq {α : Type} : ∀ (k n : Nat) (a : α),
    (List.replicate n a).drop k = List.replicate (n - k) a
  | 0, n, a => by simp
  | k + 1, 0, a => by simp
  | k + 1, n + 1, a => by
    simp only [List.replicate_succ, List.drop_succ_cons, Nat.succ_sub_succ]
    exact drop_replicate_eq k n a

/-- A term evaluated against a concrete extent never yields a None coordinate
when it succeeds. -/
theorem evalTerm_some (t : Term) (u : Option Int) (w : Int) (v : Option Int)
    (h : evalTerm t u (some w) = .ok v) : ∃ a, v = some a := by
  cases t with
  | relpos r => exact ⟨0 + r, by simpa [evalTerm] using h.symm⟩
  | zerosent =>
    cases u with
    | none => exact ⟨0, by simpa [evalTerm] using h.symm⟩
    | some uv => exact ⟨w, by simpa [evalTerm] using h.symm⟩
  | relneg r => exact ⟨w + r, by simpa [evalTerm] using h.symm⟩
  | sizeoff r =>
    cases u with
    | none => simp [evalTerm] at h
    | some uv => exact ⟨uv + r, by simpa [evalTerm] using h.symm⟩
  | absolute s =>
    cases hp : pyIntOfChars s with
    | none => rw [evalTerm, hp] at h; cases h
    | some z => rw [evalTerm, hp] at h; exact ⟨z, by simpa using h.symm⟩

/-- Successful resolution decomposes into the four term evaluations in their
fixed order, each feeding the next. -/
theorem resolveTerms_ok (t0 t1 t2 t3 : Term) (sz0 sz1 : Option Int) (r : PyCrop)
    (h : resolveTerms t0 t1 t2 t3 sz0 sz1 = .ok r) :
    ∃ c0 c1 c2 c3, evalTerm t0 none sz0 = .ok c0 ∧ evalTerm t1 none sz1 = .ok c1 ∧
      evalTerm t2 c0 sz0 = .ok c2 ∧ evalTerm t3 c1 sz1 = .ok c3 ∧
      r = (c0, c1, c2, c3) := by
  unfold resolveTerms at h
  cases h0 : evalTerm t0 none sz0 with
  | error e => rw [h0] at h; cases h
  | ok c0 =>
    rw [h0] at h; dsimp only at h
    cases h1 : evalTerm t1 none sz1 with
    | error e => rw [h1] at h; cases h
    | ok c1 =>
      rw [h1] at h; dsimp only at h
      cases h2 : evalTerm t2 c0 sz0 with
      | error e => rw [h2] at h; cases h
      | ok c2 =>
        rw [h2] at h; dsimp only at h
        cases h3 : evalTerm t3 c1 sz1 with
        | error e => rw [h3] at h; cases h
        | ok c3 =>
          rw [h3] at h; dsimp only at h
          exact ⟨c0, c1, c2, c3, rfl, rfl, h2, h3, (Except.ok.inj h).symm⟩

/-- C6 amended: a token starting with one of the prefixes R, r, +, -, S, s
whose integer remainder is invalid fails eagerly at parse time inside
_parseNRS; only the prefix-less form defers the conversion. -/
theorem c6_amended (s : String) (c : Char) (rest : List Char)
    (h1 : pytrim s.data = c :: rest)
    (h2 : c = 'R' ∨ c = 'r' ∨ c = '+' ∨ c = '-' ∨ c = 'S' ∨ c = 's')
    (h3 : pyIntOfChars (remainderOf c rest) = none) :
    ∃ e, _parseNRS s = .error e := by
  unfold _parseNRS parseNRS
  rw [h1]
  rcases h2 with hc | hc | hc | hc | hc | hc <;> subst hc <;>
    simp only [remainderOf, if_pos, if_neg, decide_eq_true_eq] at h3 ⊢ <;>
    simp_all

/-- Witness for the C6 amended theorem on the token R+x. -/
theorem c6_amended_witness : ∃ e, _parseNRS "R+x" = .error e :=
  c6_amended "R+x" 'R' ['+', 'x'] (by decide) (by decide) (by decide)

/-- C7 (confirmed): the resolver evaluates terms in the fixed order x1, y1,
x2, y2; a zero-sentinel yields 0 in the x1 position and the extent in the x2
position, and a size-offset in a second position yields the already-resolved
anchor plus its offset. -/
theorem c7_theorem :
    (∀ t1 t2 t3 (w hh : Int) r,
        resolveTerms Term.zerosent t1 t2 t3 (some w) (some hh) = .ok r →
        r.1 = some 0)
  ∧ (∀ t0 t1 t3 (w hh : Int) r,
        resolveTerms t0 t1 Term.zerosent t3 (some w) (some hh) = .ok r →
        r.2.2.1 = some w)
  ∧ (∀ t0 t1 t3 (k w hh : Int) r a,
        resolveTerms t0 t1 (Term.sizeoff k) t3 (some w) (some hh) = .ok r →
        r.1 = some a → r.2.2.1 = some (a + k))
  ∧ (∀ t0 t1 t2 (k w hh : Int) r b,
        resolveTerms t0 t1 t2 (Term.sizeoff k) (some w) (some hh) = .ok r →
        r.2.1 = some b → r.2.2.2 = some (b + k)) := by
  refine ⟨?_, ?_, ?_, ?_⟩
  · intro t1 t2 t3 w hh r h
    obtain ⟨c0, c1, c2, c3, e0, _, _, _, hr⟩ := resolveTerms_ok _ _ _ _ _ _ _ h
    have e0' : (Except.ok (some (0 : Int)) : Except String (Option Int)) = .ok c0 := by
      rw [← e0]; rfl
    subst hr
    exact (Except.ok.inj e0').symm
  · intro t0 t1 t3 w hh r h
    obtain ⟨c0, c1, c2, c3, e0, _, e2, _, hr⟩ := resolveTerms_ok _ _ _ _ _ _ _ h
    obtain ⟨a, ha⟩ := evalTerm_some _ _ _ _ e0
    subst ha
    have e2' : (Except.ok (some w) : Except String (Option Int)) = .ok c2 := by
      rw [← e2]; rfl
    subst hr
    exact (Except.ok.inj e2').symm
  · intro t0 t1 t3 k w hh r a h ha
    obtain ⟨c0, c1, c2, c3, e0, _, e2, _, hr⟩ := resolveTerms_ok _ _ _ _ _ _ _ h
    subst hr
    have hc0 : c0 = some a := ha
    subst hc0
    have e2' : (Except.ok (some (a + k)) : Except String (Option Int)) = .ok c2 := by
      rw [← e2]; rfl
    exact (Except.ok.inj e2').symm
  · intro t0 t1 t2 k w hh r b h hb
    obtain ⟨c0, c1, c2, c3, _, e1, _, e3, hr⟩ := resolveTerms_ok _ _ _ _ _ _ _ h
    subst hr
    have hc1 : c1 = some b := hb
    subst hc1
    have e3' : (Except.ok (some (b + k)) : Except String (Option Int)) = .ok c3 := by
      rw [← e3]; rfl
    exact (Except.ok.inj e3').symm

/-- Witness for C7 at concrete terms and extents 9 and 7. -/
theorem c7_witness :
    ((some 0, some 0, some 9, some 7) : PyCrop).1 = some 0 ∧
    ((some 0, some 0, some 9, some 7) : PyCrop).2.2.1 = some 9 ∧
    ((some 3, some 4, some 8, some 10) : PyCrop).2.2.1 = some (3 + 5) :=
  ⟨c7_theorem.1 .zerosent .zerosent .zerosent 9 7 _ (by decide),
   c7_theorem.2.1 .zerosent .zerosent .zerosent 9 7 _ (by decide),
   c7_theorem.2.2.1 (.absolute ['3']) (.absolute ['4']) (.absolute ['1', '0'])
     5 9 7 _ 3 (by decide) rfl⟩

/-- C2 amended: the image1 lookup used at waypoint activation is a
first-occurrence search over the whole sequence from position 0; the index it
returns is the globally first occurrence, which can lie before the current
position. -/
theorem c2_amended (names : List String) (x : String) (i : Nat)
    (h : findIdxO names (some x) = some i) :
    names.get? i = some x ∧ ∀ j, j < i → names.get? j ≠ some x := by
  induction names generalizing i with
  | nil => simp [findIdxO, findIdxS] at h
  | cons a rest ih =>
    rw [findIdxO, findIdxS] at h
    by_cases ha : a = x
    · rw [if_pos ha] at h
      cases h
      exact ⟨by simpa using ha, fun j hj => absurd hj (Nat.not_lt_zero j)⟩
    · rw [if_neg ha] at h
      obtain ⟨i', hi', hsucc⟩ := Option.map_eq_some'.1 h
      subst hsucc
      obtain ⟨hget, hlt⟩ := ih i' (by rw [findIdxO]; exact hi')
      refine ⟨by simpa using hget, ?_⟩
      intro j hj
      cases j with
      | zero => simpa using ha
      | succ j' => simpa using hlt j' (Nat.lt_of_succ_lt_succ hj)

/-- Witness for the C2 amended theorem on a concrete lookup. -/
theorem c2_amended_witness : ["Y", "A", "X"].get? 2 = some "X" :=
  (c2_amended ["Y", "A", "X"] "X" 2 (by decide)).1

/-- Overfull crop strings fail with ValueError inside argtuple. -/
theorem c9_part_b (s : String) (hlen : 4 < (pySplit s ',').length) :
    cropargv s = .error "ValueError" := by
  have hs : ¬ s = "" := by
    intro he; subst he
    have h1 : (pySplit "" ',').length = 1 := by decide
    omega
  unfold cropargv argtuple
  norm_num
  rw [if_neg hs]
  rw [show (splitLoop s [','] : Except String (List String)) = .ok (pySplit s ',') from rfl]
  dsimp only
  rw [if_pos hlen]

/-- Underfull crop strings are padded with the default token +0. -/
theorem c9_part_c (s : String) (hs : s ≠ "") (hlen : (pySplit s ',').length ≤ 4) :
    cropargv s
      = ((pySplit s ',')
          ++ List.replicate (4 - (pySplit s ',').length) "+0").mapM _parseNRS := by
  unfold cropargv argtuple
  norm_num
  rw [if_neg hs]
  rw [show (splitLoop s [','] : Except String (List String)) = .ok (pySplit s ',') from rfl]
  dsimp only
  rw [if_neg (show ¬ 4 < (pySplit s ',').length from by omega)]

/-- C9 (confirmed): cropargv pads missing comma-separated tokens with the
default zero-sentinel token +0, so the empty string resolves against an image
of size (w, h) to the full box (0, 0, w, h); more than four tokens raise
ValueError. -/
theorem c9_theorem :
    (cropargv "" = .ok [Term.zerosent, Term.zerosent, Term.zerosent, Term.zerosent] ∧
      ∀ (w hh : Int) (fs : String → Option (Int × Int)),
        computecrop [Term.zerosent, Term.zerosent, Term.zerosent, Term.zerosent]
          (ImgArg.img (w, hh)) fs = .ok (some 0, some 0, some w, some hh))
  ∧ (∀ s : String, 4 < (pySplit s ',').length → cropargv s = .error "ValueError")
  ∧ (∀ s : String, s ≠ "" → (pySplit s ',').length ≤ 4 →
      cropargv s
        = ((pySplit s ',')
            ++ List.replicate (4 - (pySplit s ',').length) "+0").mapM _parseNRS) :=
  ⟨⟨by decide, fun _ _ _ => rfl⟩, c9_part_b, c9_part_c⟩

/-- Witness for C9 at a one-token string and a five-token string. -/
theorem c9_witness :
    (cropargv "5"
      = ((pySplit "5" ',')
          ++ List.replicate (4 - (pySplit "5" ',').length) "+0").mapM _parseNRS) ∧
    cropargv "1,2,3,4,5" = .error "ValueError" :=
  ⟨c9_theorem.2.2 "5" (by decide) (by decide),
   c9_theorem.2.1 "1,2,3,4,5" (by decide)⟩

/-- Adding the zero deltas leaves a box unchanged. -/
theorem Box.add_zeroBox (b : Box) : b.add zeroBox = b := by
  ext <;> simp [Box.add, zeroBox]

/-- A name absent from the list is never found (ValueError branch). -/
theorem findIdxS_eq_none (s : String) : ∀ (l : List String), s ∉ l → findIdxS s l = none
  | [], _ => rfl
  | a :: rest, h => by
    have ha : ¬ a = s := by
      intro he; subst he; exact h (List.mem_cons_self a rest)
    rw [findIdxS, if_neg ha,
      findIdxS_eq_none s rest (fun hm => h (List.mem_cons_of_mem a hm))]
    rfl

/-- With zero deltas the emission loop repeats one rounded box and leaves
curbox unchanged. -/
theorem emit_zero (fname : String) : ∀ (r : Nat) (cb : Box),
    emit fname r cb zeroBox = (List.replicate r (fname, pyroundBox cb), cb)
  | 0, cb => rfl
  | r + 1, cb => by
    rw [emit, Box.add_zeroBox, emit_zero fname r cb]
    rfl

/-- One non-activating hold step: r copies of the same rounded box and an
unchanged state. -/
theorem c8_step (namesAll : List String) (pan cl : PanSpec) (n : Int)
    (fnum : Nat) (nm : String) (cb : Box)
    (hcl : cl.image0 = none) (hn : 1 ≤ n) (hnm : pan.image1 ≠ some nm) :
    stepImage namesAll fnum nm ⟨[cl], some pan, some n, some cb, some zeroBox⟩
      = .ok (List.replicate n.toNat (nm, pyroundBox cb),
             ⟨[cl], some pan, some n, some cb, some zeroBox⟩) := by
  unfold stepImage popStep
  dsimp only
  rw [if_neg (by simp [hcl])]
  dsimp only
  rw [if_neg (show ¬ n ≤ 0 from by omega)]
  try dsimp only
  rw [emit_zero]
  try dsimp only
  unfold settle
  try dsimp only
  rw [if_neg hnm]

/-- The hold walk: with zero deltas and no settle matches the whole suffix
emits the same rounded box and the state never changes. -/
theorem c8_walk (namesAll : List String) (pan cl : PanSpec) (n : Int)
    (hcl : cl.image0 = none) (hn : 1 ≤ n) :
    ∀ (rest : List String) (fnum : Nat) (cb : Box),
    (∀ nm ∈ rest, pan.image1 ≠ some nm) →
    walkFull namesAll rest fnum ⟨[cl], some pan, some n, some cb, some zeroBox⟩
      = .ok (holdFrames n.toNat (pyroundBox cb) rest,
             ⟨[cl], some pan, some n, some cb, some zeroBox⟩)
  | [], fnum, cb, _ => rfl
  | nm :: rest, fnum, cb, h => by
    rw [walkFull, c8_step namesAll pan cl n fnum nm cb hcl hn (h nm (List.mem_cons_self nm rest))]
    dsimp only
    rw [c8_walk namesAll pan cl n hcl hn rest (fnum + 1) cb
      (fun x hx => h x (List.mem_cons_of_mem nm hx))]
    dsimp only
    rw [holdFrames]

/-- C8 (confirmed): a waypoint whose image1 does not occur in the image
sequence expands without error; its deltas are set to zero and every frame of
the rest of the walk repeats the current box unchanged (hold forever). -/
theorem c8_theorem (n0 : String) (tl : List String) (c0 : Box) (cr1 : Option Box)
    (img1 : String) (n : Int) (habs : img1 ∉ n0 :: tl) (hn : 1 ≤ n) :
    expand_pans (n0 :: tl) [⟨some n0, some c0, some img1, cr1, n⟩]
      = .ok (holdFrames n.toNat (pyroundBox c0) (n0 :: tl)) := by
  have hn0 : ¬ img1 = n0 := by
    intro he; subst he; exact habs (List.mem_cons_self img1 tl)
  have hstep : stepImage (n0 :: tl) 0 n0
      ⟨[⟨some n0, some c0, some img1, cr1, n⟩, ⟨none, cr1, none, cr1, 1⟩],
       none, none, none, none⟩
      = .ok (List.replicate n.toNat (n0, pyroundBox c0),
             ⟨[⟨none, cr1, none, cr1, 1⟩], some ⟨some n0, some c0, some img1, cr1, n⟩,
              some n, some c0, some zeroBox⟩) := by
    unfold stepImage popStep
    dsimp only
    rw [if_pos rfl]
    unfold activate
    dsimp only
    rw [show findIdxO (n0 :: tl) (some img1) = none from findIdxS_eq_none img1 (n0 :: tl) habs]
    dsimp only
    rw [if_neg (show ¬ n ≤ 0 from by omega)]
    try dsimp only
    rw [emit_zero]
    try dsimp only
    unfold settle
    try dsimp only
    rw [if_neg (show ¬ (some img1 = some n0) from by simpa using hn0)]
  unfold expand_pans expandFull
  dsimp only
  rw [if_neg (show ¬ (some n0 ≠ some n0) from by simp)]
  dsimp only [List.getLastD, PanSpec.make, pyOrStr, pyOrBox]
  simp only [List.singleton_append, List.getLast_singleton]
  rw [walkFull, hstep]
  dsimp only
  rw [c8_walk (n0 :: tl) ⟨some n0, some c0, some img1, cr1, n⟩ ⟨none, cr1, none, cr1, 1⟩ n rfl hn
    tl 1 c0 (fun x hx => by
      simp only []
      intro he
      have : img1 = x := by simpa using he
      exact habs (this ▸ List.mem_cons_of_mem n0 hx))]
  dsimp only
  rw [holdFrames]
  rfl


/-- Witness for C8 with a two-image sequence and an absent image1 Z. -/
theorem c8_witness :
    expand_pans ["A", "B"] [⟨some "A", some (Box.mk 1 2 3 4), some "Z", none, 2⟩]
      = .ok (holdFrames (2 : Int).toNat (pyroundBox (Box.mk 1 2 3 4)) ["A", "B"]) :=
  c8_theorem "A" ["B"] (Box.mk 1 2 3 4) none "Z" 2 (by decide) (by decide)

/-- The emission loop yields exactly r frames. -/
theorem emit_length (fname : String) (dl : Box) : ∀ (r : Nat) (cb : Box),
    ((emit fname r cb dl).1).length = r
  | 0, _ => rfl
  | r + 1, cb => by
    simp [emit, emit_length fname dl r]

/-- Settle keeps the working waypoint list and leaves reps at 1 or unchanged. -/
theorem settle_px_reps (fname : String) (st st' : WalkState)
    (h : settle fname st = .ok st') :
    st'.px = st.px ∧ (st'.reps = some 1 ∨ st'.reps = st.reps) := by
  unfold settle at h
  cases hp : st.p with
  | none => rw [hp] at h; cases h
  | some pp =>
    rw [hp] at h; dsimp only at h
    by_cases him : pp.image1 = some fname
    · rw [if_pos him] at h
      cases h
      exact ⟨rfl, Or.inl rfl⟩
    · rw [if_neg him] at h
      cases h
      exact ⟨rfl, Or.inr rfl⟩

/-- Successful activation pops the waypoint and installs its repeat count. -/
theorem activate_ok (names : List String) (fnum : Nat) (q : PanSpec)
    (restpx : List PanSpec) (st st' : WalkState)
    (h : activate names fnum q restpx st = .ok st') :
    st'.px = restpx ∧ st'.p = some q ∧ st'.reps = some q.n := by
  unfold activate at h
  cases hf : findIdxO names q.image1 with
  | none => rw [hf] at h; cases h; exact ⟨rfl, rfl, rfl⟩
  | some na =>
    rw [hf] at h; dsimp only at h
    by_cases hnf : ((na : Int) - (fnum : Int) + 1) * q.n = 1
    · rw [if_pos hnf] at h; cases h; exact ⟨rfl, rfl, rfl⟩
    · rw [if_neg hnf] at h
      cases hc1 : q.crop1 with
      | none => rw [hc1] at h; cases h
      | some c1 =>
        rw [hc1] at h
        cases hcb : (match q.crop0 with | some c => some c | none => st.curbox) with
        | none => rw [hcb] at h; cases h
        | some cbv => rw [hcb] at h; cases h; exact ⟨rfl, rfl, rfl⟩

/-- An activating step for a single-image waypoint (image1 equal to image0)
emits n frames and leaves the repeat count settled back to 1. -/
theorem stepImage_ok_pop (names : List String) (fnum : Nat) (fname : String)
    (st st' : WalkState) (fs : List Frame) (q : PanSpec) (restpx : List PanSpec)
    (hpx : st.px = q :: restpx) (hq : q.image0 = some fname)
    (hq1 : q.image1 = q.image0) (hqn : 1 ≤ q.n)
    (h : stepImage names fnum fname st = .ok (fs, st')) :
    (fs.length : Int) = q.n ∧ st'.px = restpx ∧ st'.reps = some 1 := by
  unfold stepImage popStep at h
  rw [hpx] at h
  dsimp only at h
  rw [if_pos hq] at h
  cases hact : activate names fnum q restpx st with
  | error e => rw [hact] at h; cases h
  | ok st1 =>
    rw [hact] at h; dsimp only at h
    obtain ⟨hpx1, hp1, hreps1⟩ := activate_ok names fnum q restpx st st1 hact
    rw [hreps1] at h; dsimp only at h
    rw [if_neg (show ¬ q.n ≤ 0 from by omega)] at h
    cases hcb : st1.curbox with
    | none => rw [hcb] at h; cases h
    | some cb =>
      rw [hcb] at h
      cases hdl : st1.deltas with
      | none => rw [hdl] at h; cases h
      | some dl =>
        rw [hdl] at h; dsimp only at h
        cases hset : settle fname
            ⟨st1.px, st1.p, some q.n, some (emit fname q.n.toNat cb dl).2, some dl⟩ with
        | error e => rw [hset] at h; cases h
        | ok st2 =>
          rw [hset] at h; dsimp only at h
          injection h with hpair
          injection hpair with h1 h2
          subst h1; subst h2
          -- settle took the image1-match branch
          unfold settle at hset
          rw [hp1] at hset; dsimp only at hset
          rw [if_pos (by rw [hq1, hq])] at hset
          cases hset
          refine ⟨?_, hpx1, rfl⟩
          rw [emit_length]
          omega

/-- A non-activating step with settled repeat count emits exactly one frame
and keeps the working waypoint list. -/
theorem stepImage_ok_nopop (names : List String) (fnum : Nat) (fname : String)
    (st st' : WalkState) (fs : List Frame)
    (hnp : ∀ q restpx, st.px = q :: restpx → ¬ q.image0 = some fname)
    (hreps : st.reps = none ∨ st.reps = some 1)
    (h : stepImage names fnum fname st = .ok (fs, st')) :
    fs.length = 1 ∧ st'.px = st.px ∧ st'.reps = some 1 := by
  unfold stepImage popStep at h
  cases hpx : st.px with
  | nil => rw [hpx] at h; cases h
  | cons q restpx =>
    rw [hpx] at h; dsimp only at h
    rw [if_neg (hnp q restpx hpx)] at h
    dsimp only at h
    cases hreps with
    | inl hr => rw [hr] at h; cases h
    | inr hr =>
      rw [hr] at h; dsimp only at h
      rw [if_neg (show ¬ (1 : Int) ≤ 0 from by omega)] at h
      cases hcb : st.curbox with
      | none => rw [hcb] at h; cases h
      | some cb =>
        rw [hcb] at h
        cases hdl : st.deltas with
        | none => rw [hdl] at h; cases h
        | some dl =>
          rw [hdl] at h; dsimp only at h
          cases hset : settle fname
              ⟨st.px, st.p, some 1, some (emit fname (1 : Int).toNat cb dl).2, some dl⟩ with
          | error e => rw [hset] at h; cases h
          | ok st2 =>
            rw [hset] at h; dsimp only at h
            injection h with hpair
            injection hpair with h1 h2
            subst h1; subst h2
            obtain ⟨hpx2, hreps2⟩ := settle_px_reps fname _ _ hset
            refine ⟨by rw [emit_length]; rfl, ?_, ?_⟩
            · rw [hpx2]; exact hpx
            · cases hreps2 with
              | inl hh => exact hh
              | inr hh => rw [hh]


/-- Frame counting along the walk: with single-image waypoints of positive
repeat count, a run that consumes every pending waypoint emits one frame per
image plus n - 1 extra frames per pending waypoint. -/
theorem walk_count (names : List String) :
    ∀ (rest : List String) (fnum : Nat) (st : WalkState) (pend : List PanSpec)
      (cl : PanSpec) (frames : List Frame) (stF : WalkState),
      st.px = pend ++ [cl] → cl.image0 = none →
      (∀ p ∈ pend, 1 ≤ p.n ∧ p.image1 = p.image0) →
      (st.reps = none ∨ st.reps = some 1) →
      walkFull names rest fnum st = .ok (frames, stF) →
      stF.px.length = 1 →
      (frames.length : Int) = rest.length + (pend.map (fun p => p.n - 1)).sum
  | [], fnum, st, pend, cl, frames, stF, hpx, hcl, hpend, hreps, h, hlen => by
    rw [walkFull] at h
    injection h with hpair
    injection hpair with h1 h2
    subst h1; subst h2
    rw [hpx] at hlen
    simp only [List.length_append, List.length_cons, List.length_nil] at hlen
    have : pend = [] := List.length_eq_zero.1 (by omega)
    subst this
    simp
  | fname :: rest', fnum, st, pend, cl, frames, stF, hpx, hcl, hpend, hreps, h, hlen => by
    rw [walkFull] at h
    cases hstep : stepImage names fnum fname st with
    | error e => rw [hstep] at h; cases h
    | ok pr =>
      obtain ⟨fs, st1⟩ := pr
      rw [hstep] at h; dsimp only at h
      cases hw : walkFull names rest' (fnum + 1) st1 with
      | error e => rw [hw] at h; cases h
      | ok pr2 =>
        obtain ⟨more, stF2⟩ := pr2
        rw [hw] at h; dsimp only at h
        injection h with hpair
        injection hpair with h1 h2
        subst h1; subst h2
        cases pend with
        | nil =>
          have hnp : ∀ q restpx, st.px = q :: restpx → ¬ q.image0 = some fname := by
            intro q restpx hq
            rw [hpx] at hq
            simp only [List.nil_append] at hq
            cases hq
            rw [hcl]
            exact fun hh => Option.noConfusion hh
          obtain ⟨hfs1, hpx1, hreps1⟩ :=
            stepImage_ok_nopop names fnum fname st st1 fs hnp hreps hstep
          have ih := walk_count names rest' (fnum + 1) st1 [] cl more stF2
            (by rw [hpx1, hpx]) hcl (by simp) (Or.inr hreps1) hw hlen
          simp only [List.length_append, List.length_cons, List.map_nil, List.sum_nil] at ih ⊢
          push_cast
          omega
        | cons q pend' =>
          by_cases hq : q.image0 = some fname
          · obtain ⟨hq1n, hq11⟩ := hpend q (List.mem_cons_self q pend')
            obtain ⟨hfsl, hpx1, hreps1⟩ :=
              stepImage_ok_pop names fnum fname st st1 fs q (pend' ++ [cl])
                (by rw [hpx]; rfl) hq hq11 hq1n hstep
            have ih := walk_count names rest' (fnum + 1) st1 pend' cl more stF2
              hpx1 hcl (fun p hp => hpend p (List.mem_cons_of_mem q hp))
              (Or.inr hreps1) hw hlen
            simp only [List.length_append, List.length_cons, List.map_cons, List.sum_cons] at ih ⊢
            push_cast at ih ⊢
            omega
          · have hnp : ∀ q' restpx, st.px = q' :: restpx → ¬ q'.image0 = some fname := by
              intro q' restpx hq'
              rw [hpx] at hq'
              simp only [List.cons_append] at hq'
              injection hq' with hh1 hh2
              subst hh1
              exact hq
            obtain ⟨hfs1, hpx1, hreps1⟩ :=
              stepImage_ok_nopop names fnum fname st st1 fs hnp hreps hstep
            have ih := walk_count names rest' (fnum + 1) st1 (q :: pend') cl more stF2
              (by rw [hpx1, hpx]) hcl hpend (Or.inr hreps1) hw hlen
            simp only [List.length_append, List.length_cons, List.map_cons, List.sum_cons] at ih ⊢
            push_cast at ih ⊢
            omega


/-- With all repeat counts at least 1, summing n - 1 equals the claim formula
restricted to waypoints with n greater than 1. -/
theorem sum_n_sub_one (pans : List PanSpec) (h : ∀ p ∈ pans, 1 ≤ p.n) :
    (pans.map (fun p => p.n - 1)).sum = panExtraClaim pans := by
  induction pans with
  | nil => rfl
  | cons p ps ih =>
    have h1 := h p (List.mem_cons_self p ps)
    have h2 := ih (fun x hx => h x (List.mem_cons_of_mem p hx))
    simp only [panExtraClaim, List.map_cons, List.sum_cons] at h2 ⊢
    by_cases h3 : 1 < p.n
    · rw [if_pos h3, h2]
    · rw [if_neg h3, h2]
      omega

/-- C1 amended: the frame-count law holds for waypoint lists whose waypoints
all have repeat count at least 1 and a single-image span (image1 equal to
image0), on runs that consume every waypoint (the final working list holds
only the synthetic closing entry): the total number of frames is then
len(images) plus the sum of n - 1 over waypoints with n greater than 1.  In
general a waypoint with n greater than 1 spanning s images contributes
s * (n - 1) extra frames, as the counterexample shows. -/
theorem c1_amended (names : List String) (pans : List PanSpec)
    (frames : List Frame) (stF : WalkState)
    (h : expandFull names pans = .ok (frames, stF))
    (h1 : ∀ p ∈ pans, 1 ≤ p.n)
    (h2 : ∀ p ∈ pans, p.image1 = p.image0)
    (h3 : stF.px.length = 1) :
    (frames.length : Int) = names.length + panExtraClaim pans := by
  cases pans with
  | nil => rw [expandFull] at h; cases h
  | cons p0 pans' =>
    cases names with
    | nil => rw [expandFull] at h; cases h
    | cons n0 ntl =>
      simp only [expandFull] at h
      by_cases hins : p0.image0 ≠ some n0
      · simp only [if_pos hins] at h
        have hcount := walk_count (n0 :: ntl) (n0 :: ntl) 0
          ⟨(PanSpec.make (some n0) p0.crop0 none none 1 :: p0 :: pans')
              ++ [PanSpec.make none
                    ((PanSpec.make (some n0) p0.crop0 none none 1 :: p0 :: pans').getLastD p0).crop1
                    none none 1],
            none, none, none, none⟩
          (PanSpec.make (some n0) p0.crop0 none none 1 :: p0 :: pans')
          (PanSpec.make none
            ((PanSpec.make (some n0) p0.crop0 none none 1 :: p0 :: pans').getLastD p0).crop1
            none none 1)
          frames stF rfl rfl
          (by
            intro p hp
            rcases List.mem_cons.1 hp with hp0 | hp1
            · subst hp0
              exact ⟨by norm_num [PanSpec.make], rfl⟩
            · exact ⟨h1 p hp1, h2 p hp1⟩)
          (Or.inl rfl) h h3
        rw [hcount]
        have hsum := sum_n_sub_one (p0 :: pans') h1
        simp only [List.map_cons, List.sum_cons] at hsum ⊢
        dsimp only [PanSpec.make]
        omega
      · simp only [if_neg hins] at h
        have hcount := walk_count (n0 :: ntl) (n0 :: ntl) 0
          ⟨(p0 :: pans')
              ++ [PanSpec.make none ((p0 :: pans').getLastD p0).crop1 none none 1],
            none, none, none, none⟩
          (p0 :: pans')
          (PanSpec.make none ((p0 :: pans').getLastD p0).crop1 none none 1)
          frames stF rfl rfl
          (fun p hp => ⟨h1 p hp, h2 p hp⟩)
          (Or.inl rfl) h h3
        rw [hcount]
        rw [sum_n_sub_one (p0 :: pans') h1]

/-- Witness for the C1 amended theorem on a concrete two-image run. -/
theorem c1_amended_witness :
    (c1wFrames.length : Int) = (c1wNames.length : Int) + panExtraClaim c1wPans :=
  c1_amended c1wNames c1wPans c1wFrames c1wStF (by decide) (by decide) (by decide) (by decide)

/-- Two successive accumulated-delta advances coalesce. -/
theorem Box.add_add_smul (b d : Box) (s t : ℚ) :
    (b.add (Box.smul s d)).add (Box.smul t d) = b.add (Box.smul (s + t) d) := by
  ext <;> simp [Box.add, Box.smul] <;> ring

/-- A zero-scaled advance is the identity. -/
theorem Box.add_smul_zero (b d : Box) : b.add (Box.smul 0 d) = b := by
  ext <;> simp [Box.add, Box.smul]

/-- After r emissions curbox has advanced by r deltas. -/
theorem emit_snd (fname : String) (dl : Box) : ∀ (r : Nat) (cb : Box),
    (emit fname r cb dl).2 = cb.add (Box.smul (r : ℚ) dl)
  | 0, cb => by rw [emit, Nat.cast_zero, Box.add_smul_zero]
  | r + 1, cb => by
    rw [emit]
    dsimp only
    rw [emit_snd fname dl r (cb.add dl)]
    have : cb.add dl = cb.add (Box.smul 1 dl) := by
      ext <;> simp [Box.add, Box.smul]
    rw [this, Box.add_add_smul]
    push_cast
    ring_nf

/-- The last element of a cons with nonempty tail is the last of the tail. -/
theorem getLast?_cons_ne_nil {α : Type} (a : α) (l : List α) (h : l ≠ []) :
    (a :: l).getLast? = l.getLast? := by
  cases l with
  | nil => exact absurd rfl h
  | cons b m => exact List.getLast?_cons_cons

/-- The final frame of a nonempty emission run rounds the box advanced by
r deltas. -/
theorem emit_getLast (fname : String) (dl : Box) : ∀ (r : Nat) (cb : Box),
    ((emit fname (r + 1) cb dl).1).getLast?
      = some (fname, pyroundBox (cb.add (Box.smul (r : ℚ) dl)))
  | 0, cb => by
    rw [show ((emit fname 1 cb dl).1) = [(fname, pyroundBox cb)] from rfl]
    rw [Nat.cast_zero, Box.add_smul_zero]
    rfl
  | r + 1, cb => by
    have hne : (emit fname (r + 1) (cb.add dl) dl).1 ≠ [] := by
      intro he
      have := emit_length fname dl (r + 1) (cb.add dl)
      rw [he] at this
      simp at this
    rw [show ((emit fname (r + 2) cb dl).1)
        = (fname, pyroundBox cb) :: (emit fname (r + 1) (cb.add dl) dl).1 from rfl]
    rw [getLast?_cons_ne_nil _ _ hne, emit_getLast fname dl r (cb.add dl)]
    have : cb.add dl = cb.add (Box.smul 1 dl) := by
      ext <;> simp [Box.add, Box.smul]
    rw [this, Box.add_add_smul]
    push_cast
    ring_nf


/-- A non-activating interpolation step: n frames, curbox advanced n times. -/
theorem c4_step_mid (namesAll : List String) (pan cl : PanSpec) (n : Int) (dl : Box)
    (fnum : Nat) (nm : String) (cb : Box)
    (hcl : cl.image0 = none) (hn : 1 ≤ n) (hnm : pan.image1 ≠ some nm) :
    stepImage namesAll fnum nm ⟨[cl], some pan, some n, some cb, some dl⟩
      = .ok ((emit nm n.toNat cb dl).1,
             ⟨[cl], some pan, some n, some (emit nm n.toNat cb dl).2, some dl⟩) := by
  unfold stepImage popStep
  dsimp only
  rw [if_neg (by simp [hcl])]
  dsimp only
  rw [if_neg (show ¬ n ≤ 0 from by omega)]
  try dsimp only
  unfold settle
  try dsimp only
  rw [if_neg hnm]

/-- The step at the segment target image1: n frames are emitted from the
drifted box first, and only afterwards does the settle snap curbox. -/
theorem c4_step_last (namesAll : List String) (pan cl : PanSpec) (n : Int) (dl : Box)
    (fnum : Nat) (cb : Box)
    (hcl : cl.image0 = none) (hn : 1 ≤ n) (him : pan.image1 = some "C") :
    stepImage namesAll fnum "C" ⟨[cl], some pan, some n, some cb, some dl⟩
      = .ok ((emit "C" n.toNat cb dl).1,
             ⟨[cl], some pan, some 1,
              (match pan.crop1 with
               | some c => some c
               | none => some (emit "C" n.toNat cb dl).2),
              some zeroBox⟩) := by
  unfold stepImage popStep
  dsimp only
  rw [if_neg (by simp [hcl])]
  dsimp only
  rw [if_neg (show ¬ n ≤ 0 from by omega)]
  try dsimp only
  unfold settle
  try dsimp only
  rw [if_pos him]

/-- Walking the middle of a segment to its target image C: the last frame
emitted overall rounds the box advanced by a full span of deltas. -/
theorem c4_mid_walk (namesAll : List String) (pan cl : PanSpec) (n : Int) (dl : Box)
    (hcl : cl.image0 = none) (him : pan.image1 = some "C") (hn : 1 ≤ n) :
    ∀ (mids : List String) (cb : Box) (fnum : Nat), "C" ∉ mids →
    ∃ fs stF,
      walkFull namesAll (mids ++ ["C"]) fnum ⟨[cl], some pan, some n, some cb, some dl⟩
        = .ok (fs, stF)
      ∧ fs.getLast? = some ("C",
          pyroundBox (cb.add (Box.smul ((mids.length : ℚ) * (n : ℚ) + ((n : ℚ) - 1)) dl)))
  | [], cb, fnum, _ => by
    rw [List.nil_append, walkFull,
      c4_step_last namesAll pan cl n dl fnum cb hcl hn him]
    dsimp only
    rw [walkFull]
    dsimp only
    refine ⟨_, _, rfl, ?_⟩
    rw [List.append_nil]
    obtain ⟨m, hm⟩ : ∃ m : Nat, n.toNat = m + 1 := ⟨(n - 1).toNat, by omega⟩
    rw [hm, emit_getLast]
    have hsc : ((m : ℚ)) = (List.length ([] : List String) : ℚ) * (n : ℚ) + ((n : ℚ) - 1) := by
      have hmz : (m : ℤ) = n - 1 := by omega
      have h2 : ((m : ℤ) : ℚ) = ((n - 1 : ℤ) : ℚ) := by rw [hmz]
      push_cast at h2
      simp only [List.length_nil, Nat.cast_zero, zero_mul, zero_add]
      linarith
    rw [hsc]
  | mid :: mids', cb, fnum, hC => by
    have hmid : ¬ mid = "C" := by
      intro he
      exact hC (by rw [he]; exact List.mem_cons_self "C" mids')
    have hnm : pan.image1 ≠ some mid := by
      rw [him]; intro he; exact hmid (by injection he with hh; exact hh.symm)
    rw [List.cons_append, walkFull,
      c4_step_mid namesAll pan cl n dl fnum mid cb hcl hn hnm]
    dsimp only
    obtain ⟨fs, stF, hw, hlast⟩ := c4_mid_walk namesAll pan cl n dl hcl him hn
      mids' (emit mid n.toNat cb dl).2 (fnum + 1)
      (fun hm => hC (List.mem_cons_of_mem mid hm))
    rw [hw]
    dsimp only
    refine ⟨_, _, rfl, ?_⟩
    have hfs : fs ≠ [] := by
      intro he; rw [he] at hlast; cases hlast
    rw [List.getLast?_append_of_ne_nil _ hfs, hlast]
    rw [emit_snd]
    have hcast : ((n.toNat : ℚ)) = (n : ℚ) := by
      have h3 : ((n.toNat : ℤ) : ℚ) = (n : ℚ) := by rw [Int.toNat_of_nonneg (show (0:Int) ≤ n from by omega)]
      push_cast at h3
      exact h3
    rw [hcast, Box.add_add_smul]
    have hsc : (n : ℚ) + ((mids'.length : ℚ) * (n : ℚ) + ((n : ℚ) - 1))
        = ((mid :: mids').length : ℚ) * (n : ℚ) + ((n : ℚ) - 1) := by
      simp only [List.length_cons]
      push_cast
      ring
    rw [hsc]


/-- First-occurrence index of the appended final element. -/
theorem findIdxS_append_self (s : String) : ∀ (l : List String), s ∉ l →
    findIdxS s (l ++ [s]) = some l.length
  | [], _ => by simp [findIdxS]
  | a :: l, h => by
    have ha : ¬ a = s := by
      intro he
      exact h (by rw [he]; exact List.mem_cons_self s l)
    rw [List.cons_append, findIdxS, if_neg ha,
      findIdxS_append_self s l (fun hm => h (List.mem_cons_of_mem a hm))]
    rfl

/-- Advancing the start box by nf - 1 exact per-step deltas lands exactly on
crop1 (the interpolation telescopes in exact arithmetic). -/
theorem deltaBox_snap (c1 cbv : Box) (nf : Int) (h : nf ≠ 1) :
    cbv.add (Box.smul ((nf : ℚ) - 1) (deltaBox c1 cbv nf)) = c1 := by
  have hq : ((nf : ℚ) - 1) ≠ 0 := by
    intro he
    apply h
    have : (nf : ℚ) = 1 := by linarith
    exact_mod_cast this
  ext <;> simp only [Box.add, Box.smul, deltaBox] <;> field_simp

/-- Rounding a box of nonnegative integer coordinates returns them exactly. -/
theorem pyroundBox_intCast (z1 z2 z3 z4 : ℤ)
    (h1 : 0 ≤ z1) (h2 : 0 ≤ z2) (h3 : 0 ≤ z3) (h4 : 0 ≤ z4) :
    pyroundBox (Box.mk (z1 : ℚ) (z2 : ℚ) (z3 : ℚ) (z4 : ℚ)) = (z1, z2, z3, z4) := by
  unfold pyroundBox
  rw [pyround_intCast z1 h1, pyround_intCast z2 h2,
    pyround_intCast z3 h3, pyround_intCast z4 h4]

/-- The activation step of the single interpolating waypoint at image A. -/
theorem c4_step_first (mids : List String) (c0 c1q : Box) (cr0 : Option Box) (n : Int)
    (hn : 1 ≤ n) (hC : "C" ∉ mids) :
    stepImage ("A" :: (mids ++ ["C"])) 0 "A"
      ⟨[⟨some "A", some c0, some "C", some c1q, n⟩,
        ⟨none, cr0, none, cr0, 1⟩], none, none, none, none⟩
      = .ok ((emit "A" n.toNat c0 (deltaBox c1q c0 (((mids.length : Int) + 2) * n))).1,
             ⟨[⟨none, cr0, none, cr0, 1⟩],
              some ⟨some "A", some c0, some "C", some c1q, n⟩,
              some n,
              some (emit "A" n.toNat c0 (deltaBox c1q c0 (((mids.length : Int) + 2) * n))).2,
              some (deltaBox c1q c0 (((mids.length : Int) + 2) * n))⟩) := by
  have hCA : ¬ ("C" : String) = "A" := by decide
  have hfind : findIdxO ("A" :: (mids ++ ["C"])) (some "C") = some (mids.length + 1) := by
    show findIdxS "C" ("A" :: (mids ++ ["C"])) = some (mids.length + 1)
    rw [findIdxS, if_neg (show ¬ "A" = "C" from by decide),
      findIdxS_append_self "C" mids hC]
    rfl
  have hnf : ¬ (((mids.length + 1 : Nat) : Int) - (0 : Int) + 1) * n = 1 := by
    intro he
    have h2 : (2 : Int) ≤ ((mids.length : Int) + 2) := by omega
    have h3 : ((mids.length : Int) + 2) * 1 ≤ ((mids.length : Int) + 2) * n :=
      mul_le_mul_of_nonneg_left hn (by omega)
    have h4 : (((mids.length + 1 : Nat) : Int) - (0 : Int) + 1) = ((mids.length : Int) + 2) := by
      push_cast
      ring
    rw [h4] at he
    omega
  unfold stepImage popStep
  dsimp only
  rw [if_pos rfl]
  unfold activate
  dsimp only
  rw [hfind]
  dsimp only
  simp only [Nat.cast_zero]
  rw [if_neg hnf]
  dsimp only
  rw [if_neg (show ¬ n ≤ 0 from by omega)]
  try dsimp only
  unfold settle
  try dsimp only
  rw [if_neg (show ¬ (some "C" : Option String) = some "A" from by simp)]
  have h4 : (((mids.length + 1 : Nat) : Int) - (0 : Int) + 1) = ((mids.length : Int) + 2) := by
    push_cast
    ring
  rw [h4]


/-- C4 amended: for a segment from image0 A through any C-free middle stretch
to target image C, uninterrupted by other waypoint activations, with
concrete integer crop1 whose coordinates are all nonnegative and any repeat
count n at least 1, the last frame emitted for the target image equals crop1
exactly despite per-step delta accumulation.  For negative coordinates the
toward-zero rounding shifts the value, as the counterexample shows. -/
theorem c4_amended (mids : List String) (c0 : Box) (z1 z2 z3 z4 : ℤ) (n : Int)
    (hn : 1 ≤ n) (hC : "C" ∉ mids)
    (h1 : 0 ≤ z1) (h2 : 0 ≤ z2) (h3 : 0 ≤ z3) (h4 : 0 ≤ z4) :
    ∃ fs, expand_pans ("A" :: (mids ++ ["C"]))
        [⟨some "A", some c0, some "C", some (Box.mk (z1 : ℚ) (z2 : ℚ) (z3 : ℚ) (z4 : ℚ)), n⟩]
        = .ok fs ∧ fs.getLast? = some ("C", (z1, z2, z3, z4)) := by
  have hnf1 : ¬ ((mids.length : Int) + 2) * n = 1 := by
    intro he
    have h5 : ((mids.length : Int) + 2) * 1 ≤ ((mids.length : Int) + 2) * n :=
      mul_le_mul_of_nonneg_left hn (by omega)
    omega
  unfold expand_pans expandFull
  dsimp only
  rw [if_neg (show ¬ (some "A" : Option String) ≠ some "A" from by simp)]
  dsimp only [List.getLastD, PanSpec.make, pyOrStr, pyOrBox]
  simp only [List.singleton_append, List.getLast_singleton]
  rw [walkFull,
    c4_step_first mids c0 (Box.mk (z1 : ℚ) (z2 : ℚ) (z3 : ℚ) (z4 : ℚ))
      (some (Box.mk (z1 : ℚ) (z2 : ℚ) (z3 : ℚ) (z4 : ℚ))) n hn hC]
  dsimp only
  obtain ⟨fs, stF, hw, hlast⟩ := c4_mid_walk ("A" :: (mids ++ ["C"]))
    ⟨some "A", some c0, some "C", some (Box.mk (z1 : ℚ) (z2 : ℚ) (z3 : ℚ) (z4 : ℚ)), n⟩
    ⟨none, some (Box.mk (z1 : ℚ) (z2 : ℚ) (z3 : ℚ) (z4 : ℚ)), none,
      some (Box.mk (z1 : ℚ) (z2 : ℚ) (z3 : ℚ) (z4 : ℚ)), 1⟩
    n (deltaBox (Box.mk (z1 : ℚ) (z2 : ℚ) (z3 : ℚ) (z4 : ℚ)) c0 (((mids.length : Int) + 2) * n))
    rfl rfl hn mids
    (emit "A" n.toNat c0
      (deltaBox (Box.mk (z1 : ℚ) (z2 : ℚ) (z3 : ℚ) (z4 : ℚ)) c0 (((mids.length : Int) + 2) * n))).2
    1 hC
  rw [hw]
  dsimp only [Except.map]
  refine ⟨_, rfl, ?_⟩
  have hfs : fs ≠ [] := by
    intro he; rw [he] at hlast; cases hlast
  rw [List.getLast?_append_of_ne_nil _ hfs, hlast]
  rw [emit_snd]
  have hcast : ((n.toNat : ℚ)) = (n : ℚ) := by
    have h5 : ((n.toNat : ℤ) : ℚ) = (n : ℚ) := by
      rw [Int.toNat_of_nonneg (show (0 : Int) ≤ n from by omega)]
    push_cast at h5
    exact h5
  rw [hcast, Box.add_add_smul]
  have hsc : (n : ℚ) + ((mids.length : ℚ) * (n : ℚ) + ((n : ℚ) - 1))
      = ((((mids.length : Int) + 2) * n : Int) : ℚ) - 1 := by
    push_cast
    ring
  rw [hsc, deltaBox_snap _ _ _ hnf1, pyroundBox_intCast z1 z2 z3 z4 h1 h2 h3 h4]


/-- Witness for the C4 amended theorem on a three-image run. -/
theorem c4_amended_witness :
    ∃ fs, expand_pans ("A" :: (["B"] ++ ["C"]))
        [⟨some "A", some (Box.mk 0 0 0 0), some "C",
          some (Box.mk ((5 : ℤ) : ℚ) ((6 : ℤ) : ℚ) ((7 : ℤ) : ℚ) ((8 : ℤ) : ℚ)), 1⟩]
        = .ok fs ∧ fs.getLast? = some ("C", ((5 : ℤ), (6 : ℤ), (7 : ℤ), (8 : ℤ))) :=
  c4_amended ["B"] (Box.mk 0 0 0 0) 5 6 7 8 1 (by decide) (by decide)
    (by decide) (by decide) (by decide) (by decide)

end ImageTools
